import Mathlib

/-!
Verification of the bedtime-story app's audio orchestration and story-history
core (a shallow embedding of the orchestration module `App.tsx` together with
the shared `types.ts` data model).

Conventions of the embedding:
* JavaScript strings become `String`/`List Char`; the two regexes used by the
  code (`\[([A-Z\s]+)\]([^\[]*)` for speaker tags and `{[^}]+}` for
  interactive-word markup) are implemented as recursive scanners with the
  same left-to-right, non-overlapping match semantics.
* Platform primitives (the Gemini collaborators, `JSON.parse`, audio decode,
  `AudioContext` creation/resume, `fetch`, `Math.random`) are oracle
  parameters supplied by an environment record; a JavaScript exception is an
  `Except.error`.
* The narration subsystem, whose correctness is a concurrency property, is
  embedded as a small-step event-loop semantics: every `await` in
  `processNarrationQueue` is a suspension point, the synchronous prefix of
  each async call runs atomically, and pending continuations (resume returns,
  decode returns, `onended` firings) are events scheduled by an adversarial
  label list.
-/

namespace BedtimeStory

/-! ## Characters and JavaScript string helpers -/

/-- The opening brace character, `Char.ofNat 123`. -/
def lbrace : Char := Char.ofNat 123

/-- The closing brace character, `Char.ofNat 125`. -/
def rbrace : Char := Char.ofNat 125

/-- Whitespace as matched by `String.prototype.trim` and the regex class
`\s` (restricted to the four common whitespace characters). -/
def isJsSpace (c : Char) : Bool := c = ' ' ∨ c = '\t' ∨ c = '\n' ∨ c = '\r'

/-- Model of `String.prototype.trim` on character lists. -/
def trimChars (l : List Char) : List Char :=
  ((l.dropWhile isJsSpace).reverse.dropWhile isJsSpace).reverse

/-- Model of `String.prototype.trim`. -/
def jsTrim (s : String) : String := String.mk (trimChars s.data)

/-- Characters matched by the speaker-tag class `[A-Z\s]`. -/
def isTagChar (c : Char) : Bool :=
  ('A' ≤ c ∧ c ≤ 'Z') ∨ c = ' ' ∨ c = '\t' ∨ c = '\n' ∨ c = '\r'

/-- Worker for `scanTags`; the fuel argument (instantiated with the input
length, which bounds the number of scanning steps) makes the recursion
structural so the definition evaluates by kernel reduction. -/
def scanTagsGo : Nat → List Char → List (List Char × List Char)
  | 0, _ => []
  | _, [] => []
  | fuel + 1, c :: rest =>
    if c = '[' then
      let tag := rest.takeWhile isTagChar
      if tag.isEmpty then scanTagsGo fuel rest
      else
        match rest.drop tag.length with
        | ']' :: rest2 =>
          let body := rest2.takeWhile (fun x => x ≠ '[')
          (tag, body) :: scanTagsGo fuel (rest2.drop body.length)
        | _ => scanTagsGo fuel rest
    else scanTagsGo fuel rest

/-- Model of `storyText.matchAll(/\[([A-Z\s]+)\]([^\[]*)/g)`: returns the
list of (first capture, second capture) pairs, scanning left to right with
non-overlapping matches, exactly as the JavaScript regex engine does. -/
def scanTags (l : List Char) : List (List Char × List Char) := scanTagsGo l.length l

/-- Worker for `stripMarkup`, fueled like `scanTagsGo`. -/
def stripMarkupGo : Nat → List Char → List Char
  | 0, l => l
  | _, [] => []
  | fuel + 1, c :: rest =>
    if c = lbrace then
      let content := rest.takeWhile (fun x => x ≠ rbrace)
      match rest.drop content.length with
      | d :: rest2 =>
        if content.isEmpty then c :: stripMarkupGo fuel rest
        else ((c :: content ++ [d]).takeWhile (fun x => x ≠ '|')).drop 1 ++ stripMarkupGo fuel rest2
      | [] => c :: stripMarkupGo fuel rest
    else c :: stripMarkupGo fuel rest

/-- Model of `text.replace(/{[^}]+}/g, (match) => match.split('|')[0].substring(1))`:
each non-overlapping match `{content}` (nonempty content without a closing
brace) is replaced by the text of the full match up to the first `|`, with
the leading brace dropped. -/
def stripMarkup (l : List Char) : List Char := stripMarkupGo l.length l

/-- Interactive-word markup stripping lifted to `String`
(`s.replace(/{[^}]+}/g, (match) => match.split('|')[0].substring(1))`). -/
def stripInteractive (s : String) : String := String.mk (stripMarkup s.data)

example : stripInteractive "Hello \x7bbrave|meaning courageous\x7d friend" = "Hello brave friend" := by
  decide

example : jsTrim "  hi there " = "hi there" := by decide

example :
    scanTags ("[NARRATOR] Hello friend".data) =
      [("NARRATOR".data, " Hello friend".data)] := by decide

/-! ## Dialogue segment derivation (handleSendMessage, character voice logic) -/

/-- The dialogue parts produced by the `matchAll` loop: for each speaker-tag
match, the speaker is `match[1].trim()` and the text is
`match[2].replace(markup).trim()`; parts whose text is empty are skipped
(`if (!text) continue`). -/
def taggedParts (storyText : String) : List (String × String) :=
  (scanTags storyText.data).filterMap fun m =>
    let text := trimChars (stripMarkup m.2)
    if text.isEmpty then none else some (String.mk (trimChars m.1), String.mk text)

/-- Dialogue derivation including the un-tagged fallback: if the match loop
produced no parts and `storyText.trim()` is nonempty, the whole raw story
text is pushed as a single NARRATOR part. -/
def deriveDialogue (storyText : String) : List (String × String) :=
  let parts := taggedParts storyText
  if parts.isEmpty ∧ ¬(jsTrim storyText).isEmpty then [("NARRATOR", storyText)]
  else parts

/-! ## Character voice assignment -/

/-- The fixed voice pool `availableVoices` from the source. -/
def availableVoices : List String := ["Puck", "Charon", "Fenrir", "Zephyr"]

/-- The narrator voice constant. -/
def narratorVoice : String := "Kore"

/-- The insertion-ordered `unassignedChars` set built during the match loop:
a speaker is queued exactly once, and only if it has no entry yet in the
character voice map. -/
def collectUnassigned (parts : List (String × String)) (voices : List (String × String)) :
    List String :=
  parts.foldl
    (fun acc p =>
      if (voices.lookup p.1).isNone ∧ ¬ acc.contains p.1 then acc ++ [p.1] else acc)
    []

/-- Worker for `assignVoices`: fold over the unassigned speakers, drawing
from the precomputed pool via `shift()` while it lasts, and falling back to
`getRandomElement(availableVoices)` — modelled by the random oracle
`oracle` (the k-th random draw yields index `oracle k % availableVoices.length`)
— once the pool is exhausted. -/
def assignVoicesGo (oracle : Nat → Nat) :
    Nat → List String → List String → List (String × String) → List (String × String)
  | _, _, [], voices => voices
  | k, v :: ps, c :: cs, voices => assignVoicesGo oracle k ps cs (voices ++ [(c, v)])
  | k, [], c :: cs, voices =>
    assignVoicesGo oracle (k + 1) [] cs
      (voices ++ [(c, availableVoices.getD (oracle k % availableVoices.length) "")])

/-- The character-voice assignment step of `handleSendMessage`: compute the
available pool by excluding already-assigned voices from the fixed pool,
then give each unassigned speaker the next pool voice, or a random voice
from the fixed pool when the pool is exhausted. -/
def assignVoices (oracle : Nat → Nat) (voices : List (String × String))
    (unassigned : List String) : List (String × String) :=
  let assigned := voices.map Prod.snd
  let pool := availableVoices.filter fun v => ¬ assigned.contains v
  assignVoicesGo oracle 0 pool unassigned voices

/-- Voice used to synthesize one dialogue part:
`newCharacterVoices[part.speaker] || narratorVoice`. -/
def voiceFor (voices : List (String × String)) (speaker : String) : String :=
  (voices.lookup speaker).getD narratorVoice

example :
    taggedParts "[NARRATOR] Hello \x7bbrave|meaning courageous\x7d friend" =
      [("NARRATOR", "Hello brave friend")] := by decide

example :
    assignVoices (fun _ => 0) [("NARRATOR", "Kore")] ["BARNABY", "MOLLY"] =
      [("NARRATOR", "Kore"), ("BARNABY", "Puck"), ("MOLLY", "Charon")] := by decide

/-! ## JavaScript values and the JSON.parse fallback of handleSendMessage -/

/-- JSON values as returned by a successful `JSON.parse`. -/
inductive Json where
  | null
  | bool (b : Bool)
  | num (n : Int)
  | str (s : String)
  | arr (elems : List Json)
  | obj (fields : List (String × Json))

/-- A JavaScript value as stored in a variable: a JSON value or `undefined`
(property access on a missing key). -/
inductive JsVal where
  | undefined
  | js (j : Json)

/-- JavaScript property access `j[k]` on a parsed JSON value: throws a
`TypeError` on `null`, yields the field for objects (or `undefined` when the
key is missing), and `undefined` on every other value. -/
def jsonField (j : Json) (k : String) : Except Unit JsVal :=
  match j with
  | .null => .error ()
  | .obj fields =>
    match fields.lookup k with
    | some v => .ok (.js v)
    | none => .ok .undefined
  | _ => .ok .undefined

/-- The JSON-parsing block of `handleSendMessage`, lines 357-365: mirrors the
mutable-assignment order of the source.  `parsed` is the oracle result of
`JSON.parse(response.text)` (`none` when it throws).  `newChoices` starts as
the empty array; it is overwritten by `parsedResponse.choices` *before* the
structure check, so when the check throws, the already-assigned choices value
survives into the catch, which only resets `storyText` to the raw text. -/
def parseTurnFields (parsed : Option Json) (raw : String) : String × JsVal :=
  match parsed with
  | none => (raw, .js (.arr []))
  | some j =>
    match jsonField j "story" with
    | .error _ => (raw, .js (.arr []))
    | .ok sv =>
      match jsonField j "choices" with
      | .error _ => (raw, .js (.arr []))
      | .ok cv =>
        match sv, cv with
        | .js (.str s), .js (.arr l) => (s, .js (.arr l))
        | _, _ => (raw, cv)

/-! ## Story history (undo/redo log) -/

/-- The `MessageAuthor` enum from `types.ts`. -/
inductive MessageAuthor where
  | user
  | model
deriving DecidableEq

/-- A chat message (`types.ts`). -/
structure ChatMessage where
  author : MessageAuthor
  text : String

/-- Constructor for a user message. -/
def userMsg (text : String) : ChatMessage := ⟨.user, text⟩

/-- Constructor for a model message. -/
def modelMsg (text : String) : ChatMessage := ⟨.model, text⟩

/-- A story snapshot (`StoryState` in the source).  The `choices` field is a
JavaScript value because the turn logic can commit a non-array value into it
(see `parseTurnFields`). -/
structure StoryState where
  chatHistory : List ChatMessage
  imageUrl : Option String
  choices : JsVal

/-- The undo/redo log: the `history` array plus the `historyIndex` cursor. -/
structure HistState (α : Type) where
  log : List α
  cursor : Nat
deriving DecidableEq

/-- The commit step of `handleSendMessage` (lines 418-420):
`newHistory = history.slice(0, historyIndex + 1)`, then append the new
snapshot and set the cursor to `newHistory.length`. -/
def histCommit {α : Type} (h : HistState α) (s : α) : HistState α :=
  let newHistory := h.log.take (h.cursor + 1)
  ⟨newHistory ++ [s], newHistory.length⟩

/-- `handleUndo` (line 500): decrement the cursor iff `canUndo`
(`historyIndex > 0`). -/
def histUndo {α : Type} (h : HistState α) : HistState α :=
  if 0 < h.cursor then ⟨h.log, h.cursor - 1⟩ else h

/-- `handleRedo` (line 501): increment the cursor iff `canRedo`
(`historyIndex < history.length - 1`). -/
def histRedo {α : Type} (h : HistState α) : HistState α :=
  if h.cursor < h.log.length - 1 then ⟨h.log, h.cursor + 1⟩ else h

/-- The snapshot the view renders from: `history[historyIndex]`. -/
def histCurrent {α : Type} (h : HistState α) : Option α := h.log.get? h.cursor

/-- An abstract history operation. -/
inductive HistOp (α : Type) where
  | commit (s : α)
  | undo
  | redo

/-- Apply one history operation. -/
def applyOp {α : Type} (h : HistState α) : HistOp α → HistState α
  | .commit s => histCommit h s
  | .undo => histUndo h
  | .redo => histRedo h

/-- Apply a sequence of history operations, oldest first. -/
def applyOps {α : Type} (h : HistState α) (ops : List (HistOp α)) : HistState α :=
  ops.foldl applyOp h

/-! ## Narration player: event-loop small-step semantics

`processNarrationQueue` captures `narrationVersion` on entry, then suspends
at `AudioContext.resume()` and at `decodeAudioData`, re-checking the captured
version after each suspension.  `source.start()` happens synchronously after
the post-decode check.  We model each queue item as a pair
(version of the enqueuing call, position in that call), and log every
`source.start()` in the ghost field `started`, paired with the value of
`narrationVersion` at the moment of the start. -/

/-- A queued narration payload, identified by the generation number of the
`playNarration`/`playNarrationSequence` call that enqueued it together with
its position in that call's item list. -/
structure QItem where
  ver : Nat
  idx : Nat
deriving DecidableEq

/-- Where an in-flight `processNarrationQueue` invocation is suspended. -/
inductive NPhase where
  | awaitResume -- inside `await narrationAudioContext.current.resume()`
  | awaitDecode -- inside `await decodeAudioData(...)`
  | waitEnded   -- source started, waiting for the `onended` event
deriving DecidableEq

/-- One in-flight invocation of `processNarrationQueue`: the version it
captured on entry, the item it shifted off the queue, and its suspension
point. -/
structure NTask where
  cap : Nat
  item : QItem
  phase : NPhase
deriving DecidableEq

/-- The narration subsystem state: the refs of the source plus the pending
event-loop continuations and the ghost start log. -/
structure NarrState where
  version : Nat            -- narrationVersion ref
  queue : List QItem       -- narrationQueue ref
  playing : Bool           -- isPlayingNarration ref
  source : Option QItem    -- currentNarrationSource ref (by the item it plays)
  ctxExists : Bool         -- whether narrationAudioContext has been created
  tasks : List NTask       -- pending suspended invocations and onended handlers
  started : List (QItem × Nat) -- ghost: (item, narrationVersion at its start)
deriving DecidableEq

/-- The initial narration state (all refs null/empty/zero). -/
def narrInit : NarrState := ⟨0, [], false, none, false, [], []⟩

/-- Append a new suspended invocation: it captured the current version and,
depending on whether the context reports `suspended`, parks at the resume
await or proceeds straight to the decode await (the version check after a
skipped resume trivially passes because no suspension happened). -/
def spawnTask (sus : Bool) (item : QItem) (s : NarrState) : NarrState :=
  let ph := if sus then NPhase.awaitResume else NPhase.awaitDecode
  { s with tasks := s.tasks ++ [⟨s.version, item, ph⟩] }

/-- The synchronous prefix of `processNarrationQueue` (lines 182-223 up to the
first suspension): capture the version; bail out if already playing or the
queue is empty; set the playing flag; shift the head item; create the audio
context on first use (`cf` = the creation throws, in which case the flag is
cleared and the invocation returns); then suspend at resume (`sus` = the
context reports suspended) or at decode. -/
def procSync (cf sus : Bool) (s : NarrState) : NarrState :=
  if s.playing then s
  else
    match s.queue with
    | [] => s
    | item :: rest =>
      let s1 := { s with playing := true, queue := rest }
      if s1.ctxExists then spawnTask sus item s1
      else if cf then { s1 with playing := false }
      else spawnTask sus item { s1 with ctxExists := true }

/-- `stopNarration` (lines 157-168): bump the generation counter, clear the
queue, stop and release the active source (its pending `onended` handler, if
any, stays scheduled), clear the playing flag. -/
def stopNarr (s : NarrState) : NarrState :=
  { s with version := s.version + 1, queue := [], source := none, playing := false }

/-- `playNarrationSequence` (and `playNarration` for `n = 1`): stop, set the
queue to exactly the new items (tagged with the fresh generation number), and
run the synchronous prefix of `processNarrationQueue`. -/
def enqueueNarr (n : Nat) (cf sus : Bool) (s : NarrState) : NarrState :=
  let s1 := stopNarr s
  let s2 := { s1 with queue := (List.range n).map fun i => ⟨s1.version, i⟩ }
  procSync cf sus s2

/-- An event-loop step of the narration subsystem.  `i` picks the pending
continuation the event targets; the Booleans are the environment outcomes of
that step (`ok` = the awaited operation succeeded; `cf`/`sus` configure any
`processNarrationQueue` invocation spawned synchronously inside the step). -/
inductive NLabel where
  | enqueue (n : Nat) (cf sus : Bool)
  | resumeRet (i : Nat) (ok : Bool)
  | decodeRet (i : Nat) (ok : Bool) (cf sus : Bool)
  | ended (i : Nat) (cf sus : Bool)
deriving DecidableEq

/-- One small step.  Events addressed at a continuation that is not at the
matching suspension point are dropped (they cannot occur in the source; this
keeps the step function total). -/
def nstep (s : NarrState) : NLabel → NarrState
  | .enqueue n cf sus => enqueueNarr n cf sus s
  | .resumeRet i ok =>
    match s.tasks.get? i with
    | none => s
    | some t =>
      if t.phase = .awaitResume then
        if ok then
          -- line 216: version re-check after the resume suspension
          if t.cap = s.version then
            { s with tasks := s.tasks.set i ⟨t.cap, t.item, .awaitDecode⟩ }
          else { s with tasks := s.tasks.eraseIdx i, playing := false }
        else
          -- lines 209-213: resume threw; clear the flag and return
          { s with tasks := s.tasks.eraseIdx i, playing := false }
      else s
  | .decodeRet i ok cf sus =>
    match s.tasks.get? i with
    | none => s
    | some t =>
      if t.phase = .awaitDecode then
        if ok then
          -- line 225: version re-check after the decode suspension
          if t.cap = s.version then
            -- lines 230-234: connect and start the source
            { s with tasks := s.tasks.set i ⟨t.cap, t.item, .waitEnded⟩,
                     source := some t.item,
                     started := s.started ++ [(t.item, s.version)] }
          else { s with tasks := s.tasks.eraseIdx i, playing := false }
        else
          -- lines 245-251: decode threw; clear the flag, and if the version
          -- still matches, drain the next item
          let s1 := { s with tasks := s.tasks.eraseIdx i, playing := false }
          if t.cap = s.version then procSync cf sus s1 else s1
      else s
  | .ended i cf sus =>
    match s.tasks.get? i with
    | none => s
    | some t =>
      if t.phase = .waitEnded then
        -- lines 236-244: the onended handler
        let s1 := { s with playing := false }
        let s2 := if s1.source = some t.item then { s1 with source := none } else s1
        let s3 := { s2 with tasks := s2.tasks.eraseIdx i }
        if t.cap = s3.version then procSync cf sus s3 else s3
      else s

/-- Run the narration semantics from the initial state under a schedule. -/
def nrun (ls : List NLabel) : NarrState := ls.foldl nstep narrInit

/-! ## Ambiance player -/

/-- The state held in the ambiance refs. -/
structure AmbState where
  hasCtx : Bool              -- ambianceAudioContext created (with its gain node)
  currentUrl : Option String -- currentAmbianceUrl ref (the current-track marker)
  hasSource : Bool           -- currentAmbianceSource ref non-null
deriving DecidableEq

/-- Initial ambiance state. -/
def ambInit : AmbState := ⟨false, none, false⟩

/-- Environment outcomes for one `playAmbiance` call. -/
structure AmbEnv where
  createFails : Bool  -- constructing the AudioContext throws
  suspended : Bool    -- the context reports state 'suspended'
  resumeFails : Bool  -- `await audioCtx.resume()` rejects
  fetchThrows : Bool  -- `fetch(url)` rejects (network failure)
  httpOk : Bool       -- `response.ok`
  byteLength : Nat    -- `arrayBuffer.byteLength`
  decodeFails : Bool  -- `decodeAudioData` rejects
deriving DecidableEq

/-- The try-block of `playAmbiance` (lines 295-328): fetch, validate status
and minimum size (the content-type check is advisory only and has no effect
on control flow), decode, then start the new looping source.  A JavaScript
exception is `Except.error`. -/
def ambianceTryBlock (env : AmbEnv) (st : AmbState) : Except Unit AmbState :=
  if env.fetchThrows then .error ()
  else if ¬ env.httpOk then .error ()
  else if env.byteLength < 1024 then .error ()
  else if env.decodeFails then .error ()
  else .ok { st with hasSource := true }

/-- `playAmbiance(url)` (lines 255-333).  Mirrors the source: no-op when the
url equals the current marker; set the marker; lazily create the context
(plain `return` when creation throws — the marker stays set); resume when
suspended (plain `return` on failure — the marker stays set); begin fading
out and release any current source; then run the try-block, and on any
exception from it clear the marker (line 331).  The result is `Except` so
that "an exception escapes to the caller" is representable; the catch makes
every path `.ok`. -/
def playAmbianceE (env : AmbEnv) (url : String) (st : AmbState) : Except Unit AmbState :=
  if st.currentUrl = some url then .ok st
  else
    let st1 := { st with currentUrl := some url }
    if ¬ st1.hasCtx ∧ env.createFails then .ok st1
    else
      let st2 := { st1 with hasCtx := true }
      if env.suspended ∧ env.resumeFails then .ok st2
      else
        let st3 := if st2.hasSource then { st2 with hasSource := false } else st2
        match ambianceTryBlock env st3 with
        | .ok st4 => .ok st4
        | .error _ => .ok { st3 with currentUrl := none }

/-- Total wrapper used by the turn orchestrator (the call site neither awaits
nor handles errors; `playAmbianceE` is proven to never return `.error`). -/
def ambRun (env : AmbEnv) (url : String) (st : AmbState) : AmbState :=
  match playAmbianceE env url st with
  | .ok st' => st'
  | .error _ => st

/-! ## Turn orchestrator (handleSendMessage) -/

/-- The whole mutable App state touched by the orchestrator: the React state
variables and the audio refs. -/
structure AppState where
  history : List StoryState
  historyIndex : Nat
  chatHistory : List ChatMessage  -- the *visible* chat
  imageUrl : Option String
  choices : JsVal
  isLoading : Bool
  characterVoices : List (String × String)
  narr : NarrState
  amb : AmbState

/-- The history-sync effect (lines 143-150): when `history[historyIndex]`
exists, copy its fields into the visible view state. -/
def syncView (st : AppState) : AppState :=
  match st.history.get? st.historyIndex with
  | some snap =>
    { st with chatHistory := snap.chatHistory, imageUrl := snap.imageUrl,
              choices := snap.choices }
  | none => st

/-- `handleUndo` on the whole App state: guarded cursor decrement plus the
history-sync effect. -/
def handleUndo (st : AppState) : AppState :=
  if 0 < st.historyIndex then syncView { st with historyIndex := st.historyIndex - 1 }
  else st

/-- `handleRedo` on the whole App state: guarded cursor increment plus the
history-sync effect. -/
def handleRedo (st : AppState) : AppState :=
  if st.historyIndex < st.history.length - 1 then
    syncView { st with historyIndex := st.historyIndex + 1 }
  else st

/-- The URL map for ambiance keywords; the URLs are abbreviated (only their
identity matters to the claims). -/
def ambianceAudioMap : List (String × String) :=
  [("forest", "url:forest"), ("cave", "url:cave"), ("celebration", "url:celebration"),
   ("mystery", "url:mystery"), ("ocean", "url:ocean"), ("calm", "url:calm")]

/-- `ambianceAudioMap[ambianceKeyword] || ambianceAudioMap.calm`. -/
def ambianceUrlFor (keyword : String) : String :=
  (ambianceAudioMap.lookup keyword).getD "url:calm"

/-- Environment record for one turn: the collaborator and platform oracles.
`generateIllustration` and `getStoryAmbiance` catch internally and always
resolve, so they are plain values; `sendMessage` and each `textToSpeech` call
can reject. -/
structure TurnEnv where
  sendMessage : Except Unit String          -- chat.sendMessage: response.text or throw
  parse : String → Option Json              -- JSON.parse (none = it throws)
  imageUrl : String                         -- generateIllustration result
  ambKeyword : String                       -- getStoryAmbiance result
  tts : String → String → Except Unit String -- textToSpeech (text, voice)
  oracle : Nat → Nat                        -- Math.random draws for getRandomElement
  narrCf : Bool                             -- narration ctx creation outcome
  narrSus : Bool                            -- narration ctx suspended state
  amb : AmbEnv                              -- ambiance environment

/-- The apology message appended on turn failure (line 427). -/
def apologyText : String :=
  "Oh dear! My imagination got stuck. Let" ++ String.mk [Char.ofNat 39] ++
    "s try telling a different story."

/-- Outcome of the fallible middle of a turn. -/
inductive TurnOutcome where
  | sendFailed
  | ttsFailed (newVoices : List (String × String))
  | ok (storyText : String) (choicesVal : JsVal) (newVoices : List (String × String))
      (audio : List String)

/-- All the synthesis calls of a turn, in dialogue order
(`Promise.all` over `dialogueParts.map(part => textToSpeech(...))`; a single
rejection rejects the whole step). -/
def ttsAll (env : TurnEnv) (parts : List (String × String))
    (voices : List (String × String)) : Except Unit (List String) :=
  parts.mapM fun p => env.tts p.2 (voiceFor voices p.1)

/-- The fallible middle of `handleSendMessage` (lines 352-409): send the
message; parse with raw-text fallback; derive dialogue parts; assign voices
(this React state update happens before the audio await, so it survives a
later synthesis failure); then await all synthesis results. -/
def turnCore (env : TurnEnv) (st : AppState) : TurnOutcome :=
  match env.sendMessage with
  | .error _ => .sendFailed
  | .ok resp =>
    let fields := parseTurnFields (env.parse resp) resp
    let storyText := fields.1
    let parts := deriveDialogue storyText
    let newVoices :=
      assignVoices env.oracle st.characterVoices
        (collectUnassigned (taggedParts storyText) st.characterVoices)
    match ttsAll env parts newVoices with
    | .error _ => .ttsFailed newVoices
    | .ok audio => .ok storyText fields.2 newVoices audio

/-- The visible chat the optimistic update builds on:
`history[historyIndex]?.chatHistory || []`. -/
def baseChatOf (st : AppState) : List ChatMessage :=
  ((st.history.get? st.historyIndex).map StoryState.chatHistory).getD []

/-- `handleSendMessage(userInput)` (lines 336-432).  Guard; stop narration;
set the loading flag and clear the visible choices; optimistic user-message
append to the visible chat; run the fallible middle; on failure append the
apology to the visible chat only; on success build the snapshot, commit it
(slice + append + cursor), run the history-sync effect, start the ambiance
switch and replace the narration queue.  The loading flag is cleared on every
path (the `finally`). -/
def runTurn (env : TurnEnv) (userInput : String) (st : AppState) : AppState :=
  if (jsTrim userInput).isEmpty ∨ st.isLoading then st
  else
    let newChat := baseChatOf st ++ [userMsg userInput]
    let st1 := { st with narr := stopNarr st.narr, isLoading := true,
                         choices := JsVal.js (.arr []), chatHistory := newChat }
    match turnCore env st with
    | .sendFailed =>
      { st1 with chatHistory := st1.chatHistory ++ [modelMsg apologyText],
                 isLoading := false }
    | .ttsFailed newVoices =>
      { st1 with characterVoices := newVoices,
                 chatHistory := st1.chatHistory ++ [modelMsg apologyText],
                 isLoading := false }
    | .ok storyText choicesVal newVoices audio =>
      let snap : StoryState :=
        ⟨newChat ++ [modelMsg storyText], some env.imageUrl, choicesVal⟩
      let hist1 := histCommit ⟨st.history, st.historyIndex⟩ snap
      let st2 := { st1 with characterVoices := newVoices,
                            history := hist1.log, historyIndex := hist1.cursor,
                            amb := ambRun env.amb (ambianceUrlFor env.ambKeyword) st1.amb,
                            narr := enqueueNarr audio.length env.narrCf env.narrSus st1.narr,
                            isLoading := false }
      syncView st2

/-- Whether a turn's fallible middle fails (specification predicate used to
state atomicity; computed by the same oracles as `turnCore`). -/
def turnFails (env : TurnEnv) (st : AppState) : Bool :=
  match turnCore env st with
  | .sendFailed => true
  | .ttsFailed _ => true
  | .ok _ _ _ _ => false

/-- The welcome message and initial snapshot (lines 72-81). -/
def initialStoryState : StoryState :=
  ⟨[modelMsg "Hello! I can tell you a story. What should our adventure be about today?"],
    some "https://picsum.photos/seed/welcome/1024/1024", .js (.arr [])⟩

/-- The App state right after initialization completes (`isLoading` cleared
by the init effect). -/
def initialAppState : AppState :=
  ⟨[initialStoryState], 0, initialStoryState.chatHistory, initialStoryState.imageUrl,
    .js (.arr []), false, [("NARRATOR", narratorVoice)], narrInit, ambInit⟩

/-! ## Helper lemmas -/

theorem applyOp_cursor_lt {α : Type} (h : HistState α) (op : HistOp α)
    (hInv : h.cursor < h.log.length) :
    (applyOp h op).cursor < (applyOp h op).log.length := by
  cases op with
  | commit s => simp [applyOp, histCommit]
  | undo =>
    unfold applyOp histUndo
    by_cases hc : 0 < h.cursor
    · simp only [if_pos hc]
      omega
    · simpa [if_neg hc] using hInv
  | redo =>
    unfold applyOp histRedo
    by_cases hc : h.cursor < h.log.length - 1
    · simp only [if_pos hc]
      omega
    · simpa [if_neg hc] using hInv

theorem applyOps_cursor_lt {α : Type} (h : HistState α) (hInv : h.cursor < h.log.length)
    (ops : List (HistOp α)) :
    (applyOps h ops).cursor < (applyOps h ops).log.length := by
  induction ops generalizing h with
  | nil => exact hInv
  | cons op ops ih => exact ih _ (applyOp_cursor_lt h op hInv)

theorem syncView_frame (st : AppState) :
    (syncView st).history = st.history ∧ (syncView st).historyIndex = st.historyIndex ∧
    (syncView st).isLoading = st.isLoading ∧
    (syncView st).characterVoices = st.characterVoices ∧
    (syncView st).narr = st.narr ∧ (syncView st).amb = st.amb := by
  unfold syncView
  split <;> simp

/-! ## C2: story history commit/undo/redo -/

/-- C2.  For every sequence of commit/undo/redo operations: `commit`
truncates the log to the prefix `[0, cursor]`, appends the snapshot, and
sets the cursor to the new last index; the cursor always stays a valid index
(`cursor < length`, hence in `[0, length-1]`); and the concrete scenario
commit A, commit B, commit C, undo (current = B), commit D, redo ends with
log `[A, B, D]`, cursor 2, the redo a no-op. -/
theorem history_commit_undo_redo :
    (∀ (α : Type) (h : HistState α) (s : α),
      (histCommit h s).log = h.log.take (h.cursor + 1) ++ [s] ∧
      (histCommit h s).cursor + 1 = (histCommit h s).log.length) ∧
    (∀ (α : Type) (h : HistState α), h.cursor < h.log.length →
      ∀ ops : List (HistOp α),
        (applyOps h ops).cursor < (applyOps h ops).log.length) ∧
    (applyOps (⟨[], 0⟩ : HistState Nat) [.commit 10, .commit 20, .commit 30] =
        ⟨[10, 20, 30], 2⟩ ∧
      applyOps (⟨[], 0⟩ : HistState Nat) [.commit 10, .commit 20, .commit 30, .undo] =
        ⟨[10, 20, 30], 1⟩ ∧
      histCurrent (applyOps (⟨[], 0⟩ : HistState Nat)
          [.commit 10, .commit 20, .commit 30, .undo]) = some 20 ∧
      applyOps (⟨[], 0⟩ : HistState Nat)
          [.commit 10, .commit 20, .commit 30, .undo, .commit 40] = ⟨[10, 20, 40], 2⟩ ∧
      applyOps (⟨[], 0⟩ : HistState Nat)
          [.commit 10, .commit 20, .commit 30, .undo, .commit 40, .redo] =
        ⟨[10, 20, 40], 2⟩) := by
  refine ⟨?_, ?_, by decide, by decide, by decide, by decide, by decide⟩
  · intro α h s
    constructor
    · rfl
    · simp [histCommit]
  · intro α h hInv ops
    exact applyOps_cursor_lt h hInv ops

/-- Witness for C2: the cursor-validity part applied at a concrete history. -/
theorem history_commit_undo_redo_witness :
    (applyOps (⟨[5], 0⟩ : HistState Nat) [.undo, .redo, .commit 6]).cursor <
      (applyOps (⟨[5], 0⟩ : HistState Nat) [.undo, .redo, .commit 6]).log.length :=
  history_commit_undo_redo.2.1 Nat ⟨[5], 0⟩ (by decide) [.undo, .redo, .commit 6]

/-! ## C10: undo/redo only move the cursor and re-derive the view -/

/-- C10.  `handleUndo` and `handleRedo` leave the history log, the character
voice map, the entire narration state (queue, generation counter, playing
flag, active source) and the entire ambiance state (current track, context,
source) unchanged, and only move the cursor and re-derive the visible view
from the snapshot at the new cursor. -/
theorem undo_redo_frame :
    ∀ st : AppState,
      ((handleUndo st).history = st.history ∧
        (handleUndo st).characterVoices = st.characterVoices ∧
        (handleUndo st).narr = st.narr ∧ (handleUndo st).amb = st.amb ∧
        (handleUndo st).isLoading = st.isLoading) ∧
      ((handleRedo st).history = st.history ∧
        (handleRedo st).characterVoices = st.characterVoices ∧
        (handleRedo st).narr = st.narr ∧ (handleRedo st).amb = st.amb ∧
        (handleRedo st).isLoading = st.isLoading) ∧
      (0 < st.historyIndex →
        (handleUndo st).historyIndex = st.historyIndex - 1 ∧
        ∀ snap, st.history.get? (st.historyIndex - 1) = some snap →
          (handleUndo st).chatHistory = snap.chatHistory ∧
          (handleUndo st).imageUrl = snap.imageUrl ∧
          (handleUndo st).choices = snap.choices) ∧
      (st.historyIndex < st.history.length - 1 →
        (handleRedo st).historyIndex = st.historyIndex + 1 ∧
        ∀ snap, st.history.get? (st.historyIndex + 1) = some snap →
          (handleRedo st).chatHistory = snap.chatHistory ∧
          (handleRedo st).imageUrl = snap.imageUrl ∧
          (handleRedo st).choices = snap.choices) := by
  intro st
  refine ⟨?_, ?_, ?_, ?_⟩
  · unfold handleUndo
    by_cases hc : 0 < st.historyIndex
    · simp only [if_pos hc]
      have h := syncView_frame { st with historyIndex := st.historyIndex - 1 }
      exact ⟨h.1, h.2.2.2.1, h.2.2.2.2.1, h.2.2.2.2.2, h.2.2.1⟩
    · simp [if_neg hc]
  · unfold handleRedo
    by_cases hc : st.historyIndex < st.history.length - 1
    · simp only [if_pos hc]
      have h := syncView_frame { st with historyIndex := st.historyIndex + 1 }
      exact ⟨h.1, h.2.2.2.1, h.2.2.2.2.1, h.2.2.2.2.2, h.2.2.1⟩
    · simp [if_neg hc]
  · intro hc
    constructor
    · unfold handleUndo
      simp only [if_pos hc]
      exact (syncView_frame _).2.1
    · intro snap hsnap
      unfold handleUndo
      simp only [if_pos hc]
      unfold syncView
      simp only [List.get?_eq_getElem?] at hsnap
      simp [hsnap]
  · intro hc
    constructor
    · unfold handleRedo
      simp only [if_pos hc]
      exact (syncView_frame _).2.1
    · intro snap hsnap
      unfold handleRedo
      simp only [if_pos hc]
      unfold syncView
      simp only [List.get?_eq_getElem?] at hsnap
      simp [hsnap]

/-- Witness for C10: the cursor-movement parts applied at a concrete state
with three snapshots and the cursor in the middle. -/
theorem undo_redo_frame_witness :
    (handleUndo { initialAppState with
        history := [initialStoryState, initialStoryState, initialStoryState],
        historyIndex := 1 }).historyIndex = 0 ∧
    (handleRedo { initialAppState with
        history := [initialStoryState, initialStoryState, initialStoryState],
        historyIndex := 1 }).historyIndex = 2 := by
  constructor
  · exact ((undo_redo_frame _).2.2.1 (by decide)).1
  · exact ((undo_redo_frame _).2.2.2 (by decide)).1

/-! ## C4: dialogue segment derivation and markup stripping -/

/-- Counterexample for C4: for a non-empty story text with no speaker tags
the code pushes the *raw* story text as the single NARRATOR segment; the
markup `\x7bbrave|...\x7d` is not stripped, so the synthesis input differs
from the stripped text the claim asserts. -/
theorem dialogue_fallback_counterexample :
    deriveDialogue "Hello \x7bbrave|meaning courageous\x7d friend" =
      [("NARRATOR", "Hello \x7bbrave|meaning courageous\x7d friend")] ∧
    stripInteractive "Hello \x7bbrave|meaning courageous\x7d friend" = "Hello brave friend" ∧
    ("Hello \x7bbrave|meaning courageous\x7d friend" : String) ≠ "Hello brave friend" := by
  exact ⟨by decide, by decide, by decide⟩

/-- C4 (amended).  Tagged segments are stripped: the example story text
yields exactly one segment whose synthesis input is "Hello brave friend";
and when no speaker tags are found in a non-empty story text, the whole
*raw* story text (markup not stripped) becomes one NARRATOR segment. -/
theorem dialogue_derivation :
    (deriveDialogue "[NARRATOR] Hello \x7bbrave|meaning courageous\x7d friend" =
      [("NARRATOR", "Hello brave friend")]) ∧
    ∀ storyText : String, scanTags storyText.data = [] →
      ¬(jsTrim storyText).isEmpty →
      deriveDialogue storyText = [("NARRATOR", storyText)] := by
  constructor
  · decide
  · intro storyText htags hne
    unfold deriveDialogue taggedParts
    rw [htags]
    simp [hne]

/-- Witness for C4: the no-tag fallback applied at a concrete story text. -/
theorem dialogue_derivation_witness :
    deriveDialogue "Once upon a time" = [("NARRATOR", "Once upon a time")] :=
  dialogue_derivation.2 "Once upon a time" (by decide) (by decide)

/-! ## C9: character voice assignment -/

/-- C9.  With only NARRATOR assigned and segments introducing speakers
[BARNABY, BARNABY, MOLLY]: the deduplicated unassigned list is
[BARNABY, MOLLY]; for every random oracle they receive Puck and Charon — one
voice each, distinct, drawn from the fixed pool excluding already-assigned
voices; the per-segment synthesis voices are [Puck, Puck, Charon] (the second
BARNABY segment reuses BARNABY\u2019s voice); and when the pool is exhausted a
new speaker receives some voice from the fixed pool chosen by the random
oracle instead of blocking. -/
theorem voice_assignment :
    (collectUnassigned [("BARNABY", "t1"), ("BARNABY", "t2"), ("MOLLY", "t3")]
        [("NARRATOR", "Kore")] = ["BARNABY", "MOLLY"]) ∧
    (∀ oracle : Nat → Nat,
      assignVoices oracle [("NARRATOR", "Kore")] ["BARNABY", "MOLLY"] =
        [("NARRATOR", "Kore"), ("BARNABY", "Puck"), ("MOLLY", "Charon")]) ∧
    (("Puck" : String) ≠ "Charon" ∧
      "Puck" ∈ availableVoices.filter (fun v => ¬ (["Kore"].contains v)) ∧
      "Charon" ∈ availableVoices.filter (fun v => ¬ (["Kore"].contains v))) ∧
    ([("BARNABY", "t1"), ("BARNABY", "t2"), ("MOLLY", "t3")].map
        (fun p => voiceFor
          [("NARRATOR", "Kore"), ("BARNABY", "Puck"), ("MOLLY", "Charon")] p.1) =
      ["Puck", "Puck", "Charon"]) ∧
    (∀ (oracle : Nat → Nat) (voices : List (String × String)) (c : String),
      availableVoices.filter (fun v => ¬ (voices.map Prod.snd).contains v) = [] →
      ∃ v, assignVoices oracle voices [c] = voices ++ [(c, v)] ∧ v ∈ availableVoices) := by
  refine ⟨by decide, fun oracle => rfl, ⟨by decide, by decide, by decide⟩, by decide, ?_⟩
  intro oracle voices c hpool
  unfold assignVoices
  dsimp only
  rw [hpool]
  unfold assignVoicesGo
  refine ⟨availableVoices.getD (oracle 0 % availableVoices.length) "", rfl, ?_⟩
  have h4 : oracle 0 % availableVoices.length < 4 :=
    Nat.mod_lt _ (by decide)
  set k := oracle 0 % availableVoices.length with hk
  interval_cases k <;> decide

/-- Witness for C9: the pool-exhaustion part applied at a fully assigned
voice map. -/
theorem voice_assignment_witness :
    ∃ v, assignVoices (fun _ => 7)
        [("NARRATOR", "Kore"), ("A", "Puck"), ("B", "Charon"), ("C", "Fenrir"), ("D", "Zephyr")]
        ["EVE"] =
      [("NARRATOR", "Kore"), ("A", "Puck"), ("B", "Charon"), ("C", "Fenrir"), ("D", "Zephyr"),
        ("EVE", v)] ∧ v ∈ availableVoices :=
  voice_assignment.2.2.2.2 (fun _ => 7)
    [("NARRATOR", "Kore"), ("A", "Puck"), ("B", "Charon"), ("C", "Fenrir"), ("D", "Zephyr")]
    "EVE" (by decide)

/-! ## C8: ambiance switch failure handling -/

/-- Counterexample for C8: when the context is suspended and `resume()`
fails after committing to the switch, `playAmbiance` returns early and the
current-track marker stays set to the new url (it is not cleared), so a
retry with the same key is dropped by the idempotence guard. -/
theorem ambiance_resume_failure_counterexample :
    playAmbianceE ⟨false, true, true, false, true, 2048, false⟩ "url:forest"
        ⟨true, none, false⟩ =
      .ok ⟨true, some "url:forest", false⟩ ∧
    (some "url:forest" : Option String) ≠ none ∧
    playAmbianceE ⟨false, false, false, false, true, 2048, false⟩ "url:forest"
        ⟨true, some "url:forest", false⟩ =
      .ok ⟨true, some "url:forest", false⟩ := by
  exact ⟨rfl, by simp, rfl⟩

/-- C8 (amended).  `playAmbiance` never propagates an exception to its
caller.  Failures inside the try-block (fetch rejection, non-success HTTP
status, too-small payload, decode failure) clear the current-track marker so
a same-key retry is possible; but a context-creation failure or a
suspended-context resume failure returns early with the marker still set to
the new url, so a same-key retry is dropped. -/
theorem ambiance_failure_handling :
    ∀ (env : AmbEnv) (url : String) (st : AmbState),
      (∃ st2, playAmbianceE env url st = .ok st2) ∧
      (st.currentUrl ≠ some url →
        (st.hasCtx ∨ ¬ env.createFails) → ¬(env.suspended ∧ env.resumeFails) →
        (env.fetchThrows ∨ ¬ env.httpOk ∨ env.byteLength < 1024 ∨ env.decodeFails) →
        playAmbianceE env url st = .ok ⟨true, none, false⟩) ∧
      (st.currentUrl ≠ some url → ¬ st.hasCtx → env.createFails →
        playAmbianceE env url st = .ok ⟨st.hasCtx, some url, st.hasSource⟩) ∧
      (st.currentUrl ≠ some url → (st.hasCtx ∨ ¬ env.createFails) →
        env.suspended → env.resumeFails →
        playAmbianceE env url st = .ok ⟨true, some url, st.hasSource⟩) := by
  intro env url st
  refine ⟨?_, ?_, ?_, ?_⟩
  · unfold playAmbianceE
    dsimp only
    repeat' split
    all_goals exact ⟨_, rfl⟩
  · intro hne hctx hres hfail
    have htb : ∀ st3 : AmbState, ambianceTryBlock env st3 = .error () := by
      intro st3
      unfold ambianceTryBlock
      by_cases h1 : env.fetchThrows
      · rw [if_pos h1]
      · rw [if_neg h1]
        by_cases h2 : (¬ env.httpOk : Prop)
        · rw [if_pos h2]
        · rw [if_neg h2]
          by_cases h3 : env.byteLength < 1024
          · rw [if_pos h3]
          · rw [if_neg h3]
            have h4 : env.decodeFails := by tauto
            rw [if_pos h4]
    unfold playAmbianceE
    rw [if_neg hne]
    have hcf : ¬(¬ st.hasCtx ∧ env.createFails) := by tauto
    rw [if_neg hcf, if_neg hres]
    dsimp only
    rw [htb]
    by_cases hsrc : st.hasSource <;> simp [hsrc]
  · intro hne hctx hcf
    unfold playAmbianceE
    rw [if_neg hne, if_pos ⟨hctx, hcf⟩]
  · intro hne hctx hsus hres
    unfold playAmbianceE
    rw [if_neg hne]
    have hcf : ¬(¬ st.hasCtx ∧ env.createFails) := by tauto
    rw [if_neg hcf, if_pos ⟨hsus, hres⟩]

/-- Witness for C8: the try-block-failure and resume-failure parts applied
at concrete environments. -/
theorem ambiance_failure_handling_witness :
    playAmbianceE ⟨false, false, false, true, true, 2048, false⟩ "url:cave"
        ⟨true, some "url:forest", true⟩ = .ok ⟨true, none, false⟩ ∧
    playAmbianceE ⟨false, true, true, false, true, 2048, false⟩ "url:cave"
        ⟨false, none, false⟩ = .ok ⟨true, some "url:cave", false⟩ := by
  constructor
  · exact (ambiance_failure_handling ⟨false, false, false, true, true, 2048, false⟩
      "url:cave" ⟨true, some "url:forest", true⟩).2.1 (by simp) (by simp) (by simp)
      (by simp)
  · exact (ambiance_failure_handling ⟨false, true, true, false, true, 2048, false⟩
      "url:cave" ⟨false, none, false⟩).2.2.2 (by simp) (by simp) rfl rfl

/-! ## C6 and C7: single-item failures while draining the queue -/

/-- Whether a label is an external `playNarration`/`playNarrationSequence`
call (the only events that can restart a drain once no continuation is
pending). -/
def NLabel.isEnqueue : NLabel → Bool
  | .enqueue _ _ _ => true
  | _ => false

theorem nstep_stuck (s : NarrState) (ht : s.tasks = []) (l : NLabel)
    (hl : l.isEnqueue = false) : nstep s l = s := by
  cases l with
  | enqueue n cf sus => simp [NLabel.isEnqueue] at hl
  | resumeRet i ok => simp [nstep, ht]
  | decodeRet i ok cf sus => simp [nstep, ht]
  | ended i cf sus => simp [nstep, ht]

theorem nrun_stuck (s : NarrState) (ht : s.tasks = []) (ls : List NLabel)
    (hl : ∀ l ∈ ls, l.isEnqueue = false) : ls.foldl nstep s = s := by
  induction ls with
  | nil => rfl
  | cons l ls ih =>
    have h1 := nstep_stuck s ht l (hl l (by simp))
    simp only [List.foldl_cons, h1]
    exact ih fun x hx => hl x (by simp [hx])

/-- C6.  Decode failure of one queue item is non-fatal: with queue
[a, b, c] = [(1,0), (1,1), (1,2)] and the generation unchanged, a plays,
b's decode throws and b is skipped, then c plays next; at the end the whole
queue has been consumed (started log [(a,1), (c,1)], queue and pending
continuations empty), so the remaining queue was not abandoned. -/
theorem decode_failure_skips_item :
    (nrun [.enqueue 3 false false, .decodeRet 0 true false false, .ended 0 false false,
        .decodeRet 0 false false false, .decodeRet 0 true false false,
        .ended 0 false false]).started = [(⟨1, 0⟩, 1), (⟨1, 2⟩, 1)] ∧
    (nrun [.enqueue 3 false false, .decodeRet 0 true false false, .ended 0 false false,
        .decodeRet 0 false false false, .decodeRet 0 true false false,
        .ended 0 false false]).queue = [] ∧
    (nrun [.enqueue 3 false false, .decodeRet 0 true false false, .ended 0 false false,
        .decodeRet 0 false false false, .decodeRet 0 true false false,
        .ended 0 false false]).tasks = [] := by
  exact ⟨by decide, by decide, by decide⟩

/-- Counterexample for C7: enqueue [a, b] with the context suspended; the
resume fails while draining a.  Afterwards nothing has started, no
continuation is pending, and b = (1,1) is still sitting in the queue; even
under a subsequently benign environment (the extra labels) b never starts —
the next queued item is *not* attempted, contradicting the claim. -/
theorem resume_failure_counterexample :
    (nrun [.enqueue 2 false true, .resumeRet 0 false]).started = [] ∧
    (nrun [.enqueue 2 false true, .resumeRet 0 false]).tasks = [] ∧
    (nrun [.enqueue 2 false true, .resumeRet 0 false]).queue = [⟨1, 1⟩] ∧
    (nrun [.enqueue 2 false true, .resumeRet 0 false, .resumeRet 0 true,
        .decodeRet 0 true false false, .ended 0 false false]).started = [] := by
  exact ⟨by decide, by decide, by decide, by decide⟩

/-- C7 (amended).  When the context is suspended and `resume()` fails, the
current (already-shifted) item is aborted and the drain *stops*: the playing
flag is cleared, the rest of the queue stays queued and untouched, and — as
long as no new `playNarration`/`playNarrationSequence` call arrives — no
pending continuation exists, so no queued item is ever attempted or
started. -/
theorem resume_failure_stops_drain :
    (∀ (s : NarrState) (i : Nat) (t : NTask),
      s.tasks.get? i = some t → t.phase = .awaitResume →
      (nstep s (.resumeRet i false)).started = s.started ∧
      (nstep s (.resumeRet i false)).queue = s.queue ∧
      (nstep s (.resumeRet i false)).tasks = s.tasks.eraseIdx i ∧
      (nstep s (.resumeRet i false)).playing = false) ∧
    (∀ (s : NarrState), s.tasks = [] →
      ∀ ls : List NLabel, (∀ l ∈ ls, l.isEnqueue = false) →
        ls.foldl nstep s = s) := by
  constructor
  · intro s i t hget hph
    simp only [nstep]
    rw [hget]
    simp [hph]
  · exact nrun_stuck

/-- Witness for C7: both parts applied at the concrete failing trace. -/
theorem resume_failure_stops_drain_witness :
    (nstep (nrun [.enqueue 2 false true]) (.resumeRet 0 false)).queue =
      (nrun [.enqueue 2 false true]).queue ∧
    [NLabel.resumeRet 0 true, .decodeRet 0 true false false].foldl nstep
      (nrun [.enqueue 2 false true, .resumeRet 0 false]) =
      nrun [.enqueue 2 false true, .resumeRet 0 false] := by
  constructor
  · exact ((resume_failure_stops_drain.1 (nrun [.enqueue 2 false true]) 0
      ⟨1, ⟨1, 0⟩, .awaitResume⟩ (by decide) rfl)).2.1
  · exact resume_failure_stops_drain.2 (nrun [.enqueue 2 false true, .resumeRet 0 false])
      (by decide) [NLabel.resumeRet 0 true, .decodeRet 0 true false false] (by decide)

/-! ## C1: generation-counter cancellation of the narration queue -/

/-- The inductive invariant of the narration semantics: every queued item
was enqueued by the current call; every in-flight continuation's item
belongs to the call whose version it captured, and captured versions never
exceed the current one; and every logged start happened while its item's
call was still the current one. -/
def NInv (s : NarrState) : Prop :=
  (∀ q ∈ s.queue, q.ver = s.version) ∧
  (∀ t ∈ s.tasks, t.item.ver = t.cap ∧ t.cap ≤ s.version) ∧
  (∀ p ∈ s.started, p.1.ver = p.2 ∧ p.2 ≤ s.version)

theorem spawnTask_fields (sus : Bool) (item : QItem) (s : NarrState) :
    (spawnTask sus item s).version = s.version ∧
    (spawnTask sus item s).queue = s.queue ∧
    (spawnTask sus item s).started = s.started := ⟨rfl, rfl, rfl⟩

theorem spawnTask_inv (sus : Bool) (item : QItem) (s : NarrState)
    (hq : ∀ q ∈ s.queue, q.ver = s.version)
    (ht : ∀ t ∈ s.tasks, t.item.ver = t.cap ∧ t.cap ≤ s.version)
    (hs : ∀ p ∈ s.started, p.1.ver = p.2 ∧ p.2 ≤ s.version)
    (hitem : item.ver = s.version) :
    NInv (spawnTask sus item s) := by
  refine ⟨hq, ?_, hs⟩
  intro t htmem
  unfold spawnTask at htmem
  dsimp at htmem
  rcases List.mem_append.mp htmem with h1 | h1
  · exact ht t h1
  · have heq : t = ⟨s.version, item, if sus then NPhase.awaitResume else NPhase.awaitDecode⟩ := by
      simpa using h1
    subst heq
    exact ⟨hitem, le_refl _⟩

theorem procSync_version (cf sus : Bool) (s : NarrState) :
    (procSync cf sus s).version = s.version := by
  unfold procSync spawnTask
  dsimp only
  repeat' split
  all_goals rfl

theorem procSync_started (cf sus : Bool) (s : NarrState) :
    (procSync cf sus s).started = s.started := by
  unfold procSync spawnTask
  dsimp only
  repeat' split
  all_goals rfl

theorem procSync_inv (cf sus : Bool) (s : NarrState) (h : NInv s) :
    NInv (procSync cf sus s) := by
  obtain ⟨hq, ht, hs⟩ := h
  unfold procSync
  by_cases hp : s.playing
  · rw [if_pos hp]
    exact ⟨hq, ht, hs⟩
  · rw [if_neg hp]
    rcases hqq : s.queue with _ | ⟨item, rest⟩
    · exact ⟨hq, ht, hs⟩
    · have hitem : item.ver = s.version := hq item (by rw [hqq]; simp)
      have hrest : ∀ q ∈ rest, q.ver = s.version := fun q hmem =>
        hq q (by rw [hqq]; simp [hmem])
      dsimp only
      by_cases hctx : s.ctxExists
      · rw [if_pos hctx]
        exact spawnTask_inv sus item _ hrest ht hs hitem
      · rw [if_neg hctx]
        by_cases hcf : cf
        · rw [if_pos hcf]
          exact ⟨hrest, ht, hs⟩
        · rw [if_neg hcf]
          exact spawnTask_inv sus item _ hrest ht hs hitem

theorem tasks_sub_inv {s : NarrState} (ht : ∀ t ∈ s.tasks, t.item.ver = t.cap ∧ t.cap ≤ s.version)
    (i : Nat) : ∀ t ∈ s.tasks.eraseIdx i, t.item.ver = t.cap ∧ t.cap ≤ s.version :=
  fun t hmem => ht t ((List.eraseIdx_sublist s.tasks i).mem hmem)

theorem nstep_inv (s : NarrState) (l : NLabel) (h : NInv s) : NInv (nstep s l) := by
  obtain ⟨hq, ht, hs⟩ := h
  cases l with
  | enqueue n cf sus =>
    unfold nstep enqueueNarr stopNarr
    dsimp only
    apply procSync_inv
    refine ⟨?_, ?_, ?_⟩
    · intro q hmem
      simp only [List.mem_map, List.mem_range] at hmem
      obtain ⟨i, _, rfl⟩ := hmem
      rfl
    · intro t hmem
      obtain ⟨h1, h2⟩ := ht t hmem
      exact ⟨h1, Nat.le_succ_of_le h2⟩
    · intro p hmem
      obtain ⟨h1, h2⟩ := hs p hmem
      exact ⟨h1, Nat.le_succ_of_le h2⟩
  | resumeRet i ok =>
    simp only [nstep]
    rcases hget : s.tasks.get? i with _ | t
    · exact ⟨hq, ht, hs⟩
    · have htmem : t ∈ s.tasks := List.get?_mem hget
      dsimp only
      by_cases hph : t.phase = NPhase.awaitResume
      · rw [if_pos hph]
        by_cases hok : ok
        · rw [if_pos hok]
          by_cases hcap : t.cap = s.version
          · rw [if_pos hcap]
            refine ⟨hq, ?_, hs⟩
            intro t2 hmem2
            rcases List.mem_or_eq_of_mem_set hmem2 with h1 | h1
            · exact ht t2 h1
            · subst h1
              exact ht t htmem
          · rw [if_neg hcap]
            exact ⟨hq, tasks_sub_inv ht i, hs⟩
        · rw [if_neg hok]
          exact ⟨hq, tasks_sub_inv ht i, hs⟩
      · rw [if_neg hph]
        exact ⟨hq, ht, hs⟩
  | decodeRet i ok cf sus =>
    simp only [nstep]
    rcases hget : s.tasks.get? i with _ | t
    · exact ⟨hq, ht, hs⟩
    · have htmem : t ∈ s.tasks := List.get?_mem hget
      dsimp only
      by_cases hph : t.phase = NPhase.awaitDecode
      · rw [if_pos hph]
        by_cases hok : ok
        · rw [if_pos hok]
          by_cases hcap : t.cap = s.version
          · rw [if_pos hcap]
            refine ⟨hq, ?_, ?_⟩
            · intro t2 hmem2
              rcases List.mem_or_eq_of_mem_set hmem2 with h1 | h1
              · exact ht t2 h1
              · subst h1
                exact ht t htmem
            · intro p hmem2
              rcases List.mem_append.mp hmem2 with h1 | h1
              · exact hs p h1
              · have heq : p = (t.item, s.version) := by simpa using h1
                subst heq
                exact ⟨by rw [(ht t htmem).1, hcap], le_refl _⟩
          · rw [if_neg hcap]
            exact ⟨hq, tasks_sub_inv ht i, hs⟩
        · rw [if_neg hok]
          by_cases hcap : t.cap = s.version
          · rw [if_pos hcap]
            exact procSync_inv cf sus _ ⟨hq, tasks_sub_inv ht i, hs⟩
          · rw [if_neg hcap]
            exact ⟨hq, tasks_sub_inv ht i, hs⟩
      · rw [if_neg hph]
        exact ⟨hq, ht, hs⟩
  | ended i cf sus =>
    simp only [nstep]
    rcases hget : s.tasks.get? i with _ | t
    · exact ⟨hq, ht, hs⟩
    · have htmem : t ∈ s.tasks := List.get?_mem hget
      dsimp only
      by_cases hph : t.phase = NPhase.waitEnded
      · rw [if_pos hph]
        by_cases hsrc : ({ s with playing := false } : NarrState).source = some t.item
        · rw [if_pos hsrc]
          by_cases hcap : t.cap = s.version
          · rw [if_pos hcap]
            exact procSync_inv cf sus _ ⟨hq, tasks_sub_inv ht i, hs⟩
          · rw [if_neg hcap]
            exact ⟨hq, tasks_sub_inv ht i, hs⟩
        · rw [if_neg hsrc]
          by_cases hcap : t.cap = s.version
          · rw [if_pos hcap]
            exact procSync_inv cf sus _ ⟨hq, tasks_sub_inv ht i, hs⟩
          · rw [if_neg hcap]
            exact ⟨hq, tasks_sub_inv ht i, hs⟩
      · rw [if_neg hph]
        exact ⟨hq, ht, hs⟩

theorem nstep_version_le (s : NarrState) (l : NLabel) : s.version ≤ (nstep s l).version := by
  cases l with
  | enqueue n cf sus =>
    unfold nstep enqueueNarr stopNarr
    dsimp only
    rw [procSync_version]
    exact Nat.le_succ _
  | resumeRet i ok =>
    simp only [nstep]
    rcases hget : s.tasks.get? i with _ | t
    · exact le_refl _
    · dsimp only
      repeat' split
      all_goals exact le_refl _
  | decodeRet i ok cf sus =>
    simp only [nstep]
    rcases hget : s.tasks.get? i with _ | t
    · exact le_refl _
    · dsimp only
      repeat' split
      all_goals first
        | exact le_refl _
        | (rw [procSync_version]; try exact le_refl _)
  | ended i cf sus =>
    simp only [nstep]
    rcases hget : s.tasks.get? i with _ | t
    · exact le_refl _
    · dsimp only
      repeat' split
      all_goals first
        | exact le_refl _
        | (rw [procSync_version]; try exact le_refl _)

theorem nstep_started_sub (s : NarrState) (l : NLabel) :
    ∀ p ∈ (nstep s l).started, p ∈ s.started ∨ p.2 = s.version := by
  intro p hp
  cases l with
  | enqueue n cf sus =>
    unfold nstep enqueueNarr stopNarr at hp
    dsimp only at hp
    rw [procSync_started] at hp
    exact Or.inl hp
  | resumeRet i ok =>
    simp only [nstep] at hp
    rcases hget : s.tasks.get? i with _ | t <;> rw [hget] at hp
    · exact Or.inl hp
    · dsimp only at hp
      revert hp
      repeat' split
      all_goals exact fun hp => Or.inl hp
  | decodeRet i ok cf sus =>
    simp only [nstep] at hp
    rcases hget : s.tasks.get? i with _ | t <;> rw [hget] at hp
    · exact Or.inl hp
    · dsimp only at hp
      revert hp
      repeat' split
      all_goals intro hp
      all_goals try exact Or.inl hp
      all_goals try (rw [procSync_started] at hp; exact Or.inl hp)
      · rcases List.mem_append.mp hp with h1 | h1
        · exact Or.inl h1
        · have heq : p = (t.item, s.version) := by simpa using h1
          rw [heq]
          exact Or.inr rfl
  | ended i cf sus =>
    simp only [nstep] at hp
    rcases hget : s.tasks.get? i with _ | t <;> rw [hget] at hp
    · exact Or.inl hp
    · dsimp only at hp
      revert hp
      repeat' split
      all_goals intro hp
      all_goals try exact Or.inl hp
      all_goals (rw [procSync_started] at hp; exact Or.inl hp)

theorem foldl_nstep_inv (ls : List NLabel) (s : NarrState) (h : NInv s) :
    NInv (ls.foldl nstep s) := by
  induction ls generalizing s with
  | nil => exact h
  | cons l ls ih => exact ih (nstep s l) (nstep_inv s l h)

theorem foldl_nstep_version_le (ls : List NLabel) (s : NarrState) :
    s.version ≤ (ls.foldl nstep s).version := by
  induction ls generalizing s with
  | nil => exact le_refl _
  | cons l ls ih => exact le_trans (nstep_version_le s l) (ih (nstep s l))

theorem foldl_nstep_started (ls : List NLabel) (s : NarrState) :
    ∀ p ∈ (ls.foldl nstep s).started, p ∈ s.started ∨ s.version ≤ p.2 := by
  induction ls generalizing s with
  | nil => exact fun p hp => Or.inl hp
  | cons l ls ih =>
    intro p hp
    rcases ih (nstep s l) p hp with h1 | h1
    · rcases nstep_started_sub s l p h1 with h2 | h2
      · exact Or.inl h2
      · exact Or.inr (le_of_eq h2.symm)
    · exact Or.inr (le_trans (nstep_version_le s l) h1)

theorem narrInit_inv : NInv narrInit := by
  refine ⟨?_, ?_, ?_⟩ <;> intro x hx <;> simp [narrInit] at hx

/-- C1.  Generation-counter cancellation: (a) whenever a narration source
starts, the generation current at that moment equals the generation of the
call that enqueued the item — a source only ever starts while its call is
still the latest; consequently (b) after any further activity, an item whose
call has been superseded (its generation is below the current one) can never
newly appear in the start log: every item of a superseded call that had not
already started is aborted at a version re-check before its source starts. -/
theorem narration_generation_cancellation :
    (∀ ls : List NLabel, ∀ p ∈ (nrun ls).started, p.1.ver = p.2) ∧
    (∀ ls1 ls2 : List NLabel, ∀ p ∈ (nrun (ls1 ++ ls2)).started,
      p.1.ver < (nrun ls1).version → p ∈ (nrun ls1).started) := by
  have hmain : ∀ ls : List NLabel, NInv (nrun ls) := fun ls =>
    foldl_nstep_inv ls narrInit narrInit_inv
  constructor
  · intro ls p hp
    exact ((hmain ls).2.2 p hp).1
  · intro ls1 ls2 p hp hlt
    have hp2 : p ∈ ((nrun (ls1 ++ ls2)).started) := hp
    have hcur : p.1.ver = p.2 := ((hmain (ls1 ++ ls2)).2.2 p hp2).1
    rw [nrun, List.foldl_append] at hp
    rcases foldl_nstep_started ls2 (nrun ls1) p hp with h1 | h1
    · exact h1
    · exfalso
      rw [hcur] at hlt
      exact absurd h1 (not_le_of_lt hlt)

/-- Witness for C1: part (a) at a one-item trace whose item starts, and part
(b) at a trace where a second call supersedes the first call's already-started
item. -/
theorem narration_generation_cancellation_witness :
    ((⟨⟨1, 0⟩, 1⟩ : QItem × Nat) ∈
        (nrun [.enqueue 1 false false, .decodeRet 0 true false false]).started ∧
      (⟨1, 0⟩ : QItem).ver = 1) ∧
    ((⟨⟨1, 0⟩, 1⟩ : QItem × Nat) ∈
        (nrun ([.enqueue 1 false false, .decodeRet 0 true false false,
          .enqueue 1 false false] ++ [.decodeRet 0 true false false])).started ∧
      (⟨1, 0⟩ : QItem).ver <
        (nrun [.enqueue 1 false false, .decodeRet 0 true false false,
          .enqueue 1 false false]).version ∧
      (⟨⟨1, 0⟩, 1⟩ : QItem × Nat) ∈
        (nrun [.enqueue 1 false false, .decodeRet 0 true false false,
          .enqueue 1 false false]).started) := by
  refine ⟨⟨by decide, ?_⟩, ⟨by decide, by decide, ?_⟩⟩
  · exact narration_generation_cancellation.1
      [.enqueue 1 false false, .decodeRet 0 true false false] ⟨⟨1, 0⟩, 1⟩ (by decide)
  · exact narration_generation_cancellation.2
      [.enqueue 1 false false, .decodeRet 0 true false false, .enqueue 1 false false]
      [.decodeRet 0 true false false] ⟨⟨1, 0⟩, 1⟩ (by decide) (by decide)

/-! ## C3: turn atomicity -/

/-- C3.  A dispatched turn (non-blank input, not already loading) always
clears the loading flag; if its fallible middle throws (the generation call
or any synthesis call), the history log and cursor are unchanged — zero
snapshots committed — and the fixed apology message is appended only to the
visible chat; if it succeeds, exactly one snapshot is committed (the log
becomes the truncated prefix plus one new snapshot, with the cursor on
it). -/
theorem turn_atomicity :
    ∀ (env : TurnEnv) (u : String) (st : AppState),
      ¬(jsTrim u).isEmpty → st.isLoading = false →
      ((runTurn env u st).isLoading = false) ∧
      (turnFails env st = true →
        (runTurn env u st).history = st.history ∧
        (runTurn env u st).historyIndex = st.historyIndex ∧
        (runTurn env u st).chatHistory =
          baseChatOf st ++ [userMsg u, modelMsg apologyText]) ∧
      (turnFails env st = false →
        ∃ snap,
          (runTurn env u st).history =
            st.history.take (st.historyIndex + 1) ++ [snap] ∧
          (runTurn env u st).historyIndex =
            (st.history.take (st.historyIndex + 1)).length) := by
  intro env u st hu hload
  have hguard : ¬((jsTrim u).isEmpty ∨ st.isLoading) := by
    simp [hu, hload]
  unfold runTurn
  rw [if_neg hguard]
  cases hc : turnCore env st with
  | sendFailed =>
    dsimp only
    refine ⟨rfl, fun _ => ⟨rfl, rfl, by simp⟩, fun hff => ?_⟩
    simp only [turnFails, hc] at hff
    exact Bool.noConfusion hff
  | ttsFailed nv =>
    dsimp only
    refine ⟨rfl, fun _ => ⟨rfl, rfl, by simp⟩, fun hff => ?_⟩
    simp only [turnFails, hc] at hff
    exact Bool.noConfusion hff
  | ok story cv nv audio =>
    dsimp only
    refine ⟨?_, fun htf => ?_, fun _ => ?_⟩
    · exact (syncView_frame _).2.2.1
    · simp only [turnFails, hc] at htf
      exact Bool.noConfusion htf
    · refine ⟨⟨(baseChatOf st ++ [userMsg u]) ++ [modelMsg story], some env.imageUrl, cv⟩,
        ?_, ?_⟩
      · rw [(syncView_frame _).1]
        rfl
      · rw [(syncView_frame _).2.1]
        rfl

/-- Witness for C3: a concrete successful turn and a concrete failing turn
from the initial state. -/
theorem turn_atomicity_witness :
    ((runTurn ⟨.ok "A tale", fun _ => none, "img", "calm", fun _ _ => .ok "a",
        fun _ => 0, false, false, ⟨false, false, false, false, true, 2048, false⟩⟩
        "hi" initialAppState).isLoading = false) ∧
    ((runTurn ⟨.error (), fun _ => none, "img", "calm", fun _ _ => .ok "a",
        fun _ => 0, false, false, ⟨false, false, false, false, true, 2048, false⟩⟩
        "hi" initialAppState).history = initialAppState.history) := by
  constructor
  · exact (turn_atomicity _ "hi" initialAppState (by decide) rfl).1
  · exact ((turn_atomicity _ "hi" initialAppState (by decide) rfl).2.1 (by decide)).1

/-! ## C5: raw-text fallback when the model response is not parseable -/

/-- Counterexample for C5: a response that parses as JSON but fails the
structure check (its story field is a number, not a string) still cannot be
parsed into the structured shape, yet because `newChoices` is assigned
*before* the check throws, the committed snapshot keeps the parsed choices
array — it is not the empty sequence the claim requires. -/
theorem parse_structure_failure_counterexample :
    parseTurnFields (some (.obj [("story", .num 5), ("choices", .arr [.str "a"])])) "raw" =
      ("raw", .js (.arr [.str "a"])) ∧
    ((runTurn ⟨.ok "resp", fun _ => some (.obj [("story", .num 5), ("choices", .arr [.str "a"])]),
        "img", "calm", fun _ _ => .ok "audio", fun _ => 0, false, false,
        ⟨false, false, false, false, true, 2048, false⟩⟩
        "hi" initialAppState).history.getLast?).map StoryState.choices =
      some (.js (.arr [.str "a"])) ∧
    (JsVal.js (.arr [.str "a"]) ≠ .js (.arr [])) := by
  refine ⟨rfl, rfl, ?_⟩
  intro h
  injection h with h1
  injection h1 with h2
  cases h2

/-- C5 (amended).  When `JSON.parse` itself throws (the text is not JSON at
all), the turn still commits and the committed snapshot's model message text
equals the raw response text with the empty choices array; but when the text
parses as JSON and only the structure check fails, the snapshot's choices
retain whatever value was read from the parsed choices field before the
check threw (see the counterexample), so only the raw-unparseable case
guarantees empty choices. -/
theorem parse_fallback :
    (∀ raw : String, parseTurnFields none raw = (raw, .js (.arr []))) ∧
    (∀ (env : TurnEnv) (u : String) (st : AppState) (resp : String),
      ¬(jsTrim u).isEmpty → st.isLoading = false →
      env.sendMessage = .ok resp → env.parse resp = none →
      turnFails env st = false →
      (runTurn env u st).history =
        st.history.take (st.historyIndex + 1) ++
          [⟨baseChatOf st ++ [userMsg u, modelMsg resp], some env.imageUrl,
            .js (.arr [])⟩]) := by
  constructor
  · intro raw
    rfl
  · intro env u st resp hu hload hsend hparse hok
    have hguard : ¬((jsTrim u).isEmpty ∨ st.isLoading) := by
      simp [hu, hload]
    rcases hts : ttsAll env (deriveDialogue resp)
        (assignVoices env.oracle st.characterVoices
          (collectUnassigned (taggedParts resp) st.characterVoices)) with e | audio
    · exfalso
      simp only [turnFails, turnCore, hsend, hparse, parseTurnFields] at hok
      rw [hts] at hok
      simp at hok
    · have hc : turnCore env st = .ok resp (.js (.arr []))
          (assignVoices env.oracle st.characterVoices
            (collectUnassigned (taggedParts resp) st.characterVoices)) audio := by
        simp only [turnCore, hsend, hparse, parseTurnFields]
        rw [hts]
      unfold runTurn
      rw [if_neg hguard, hc]
      dsimp only
      rw [(syncView_frame _).1]
      simp [histCommit, baseChatOf]

/-- Witness for C5: the raw-unparseable fallback at a concrete turn. -/
theorem parse_fallback_witness :
    (runTurn ⟨.ok "Once upon a time...", fun _ => none, "img", "calm",
        fun _ _ => .ok "audio", fun _ => 0, false, false,
        ⟨false, false, false, false, true, 2048, false⟩⟩
        "hi" initialAppState).history =
      initialAppState.history.take 1 ++
        [⟨baseChatOf initialAppState ++ [userMsg "hi", modelMsg "Once upon a time..."],
          some "img", .js (.arr [])⟩] :=
  parse_fallback.2 _ "hi" initialAppState "Once upon a time..." (by decide) rfl rfl rfl
    (by decide)

end BedtimeStory
